import Mathlib

/-!
Verification of the outbox / delivery-retry subsystem of the SHA Connect
application (`app.py`).  The Python code keeps the pending queue in a pandas
DataFrame `st.session_state.outbox_df` and the delivery log in
`st.session_state.message_logs`.  `process_outbox` iterates over a *copy* of
the queue, mutating / dropping rows by their (stable) label, so a drain pass
is exactly a left-to-right map of a per-row step over the queue followed by
dropping the removed rows; we embed it that way.  Row labels are omitted:
outcome lists are kept in queue order, so the i-th outcome belongs to the
i-th queue entry at pass start.  `attempts` is a Python int, embedded as
`Int`.
-/

namespace ShaApp

/-- A row of `outbox_df` (columns Recipient, Message, Language, Date Created,
Type, Attempts, Status).  Status is the literal string stored by the code
("Pending", "Retrying", "Failed"); Type is "sms" or anything else (voice). -/
structure OutboxEntry where
  recipient : String
  message : String
  language : String
  dateCreated : String
  msgType : String
  attempts : Int
  status : String
deriving Repr, DecidableEq

/-- A row of `message_logs` (columns Recipient, Message, Language, Date Sent,
Type, Status). -/
structure DeliveryLogEntry where
  recipient : String
  message : String
  language : String
  dateSent : String
  msgType : String
  status : String
deriving Repr, DecidableEq

/-- The Delivery Transport collaborator: `safe_send_sms` / `safe_make_call`
viewed abstractly as functions from (recipient, message) to (ok, info). -/
structure Transport where
  sendSms : String → String → Bool × String
  makeCall : String → String → Bool × String

/-- Channel dispatch in `process_outbox`:
`if msg_type == "sms": safe_send_sms(...) else: safe_make_call(...)`. -/
def trySend (t : Transport) (e : OutboxEntry) : Bool × String :=
  if e.msgType == "sms" then t.sendSms e.recipient e.message
  else t.makeCall e.recipient e.message

/-- The mutable state the outbox engine owns: the queue `outbox_df` and the
delivery log `message_logs`. -/
structure SysState where
  outbox : List OutboxEntry
  logs : List DeliveryLogEntry
deriving Repr, DecidableEq

/-- Model of `add_to_outbox`: append a fresh row with Attempts = 0, Status = "Pending",
Date Created = now. -/
def add_to_outbox (recipient message language : String) (msgType : String)
    (now : String) (s : SysState) : SysState :=
  { s with outbox := s.outbox ++ [⟨recipient, message, language, now, msgType, 0, "Pending"⟩] }

/-- The `sent_row` built on success: Date Sent = now, Status = "Sent". -/
def sentRow (now : String) (e : OutboxEntry) : DeliveryLogEntry :=
  ⟨e.recipient, e.message, e.language, now, e.msgType, "Sent"⟩

/-- Result of processing one queue row inside a drain pass: the row kept in
the queue (none when dropped), the log row appended (none when not sent),
the `(ok, info)` outcome appended to `results`, and whether the Delivery
Transport was invoked for the row. -/
structure EntryStep where
  keep : Option OutboxEntry
  logged : Option DeliveryLogEntry
  outcome : Bool × String
  invoked : Bool
deriving Repr, DecidableEq

/-- The loop body of `process_outbox` for one row:
if `attempts >= max_attempts` mark Failed without sending; otherwise send,
increment Attempts, and on success drop + log the row, on failure set Status
to "Retrying" when `attempts + 1 < max_attempts` and to "Failed" otherwise. -/
def drainStep (t : Transport) (now : String) (maxAttempts : Int)
    (e : OutboxEntry) : EntryStep :=
  if maxAttempts ≤ e.attempts then
    ⟨some { e with status := "Failed" }, none, (false, "max attempts reached"), false⟩
  else if (trySend t e).1 then
    ⟨none, some (sentRow now e), (true, (trySend t e).2), true⟩
  else
    ⟨some { e with
            attempts := e.attempts + 1
            status := if e.attempts + 1 < maxAttempts then "Retrying" else "Failed" },
      none, (false, (trySend t e).2), true⟩

/-- What a drain pass returns/leaves behind: the new state, the `results`
list (in queue order), and the per-row transport-invocation flags
(instrumentation: `true` exactly when the loop body called the transport). -/
structure DrainOut where
  state : SysState
  results : List (Bool × String)
  invocations : List Bool
deriving Repr, DecidableEq

/-- Model of `process_outbox(max_attempts)`: early return `[]` on an empty queue;
otherwise process every row in order, keep the non-dropped rows (drop keeps
relative order), and append the success rows to the delivery log. -/
def process_outbox (t : Transport) (now : String) (maxAttempts : Int)
    (s : SysState) : DrainOut :=
  if s.outbox.isEmpty then ⟨s, [], []⟩
  else
    let steps := s.outbox.map (drainStep t now maxAttempts)
    ⟨⟨steps.filterMap EntryStep.keep, s.logs ++ steps.filterMap EntryStep.logged⟩,
      steps.map EntryStep.outcome, steps.map EntryStep.invoked⟩

/-- The state left by a drain pass. -/
def drainPass (t : Transport) (now : String) (maxAttempts : Int)
    (s : SysState) : SysState :=
  (process_outbox t now maxAttempts s).state

/-- The "Retry Failed Only" handler: when some row has Status "Failed", set
those rows to Status "Pending", Attempts 0, and report `failed_mask.sum()`;
otherwise report nothing (count 0, state untouched). -/
def resetFailed (s : SysState) : SysState × Nat :=
  if s.outbox.any (fun e => e.status == "Failed") then
    ({ s with outbox := s.outbox.map (fun e =>
        if e.status == "Failed" then { e with status := "Pending", attempts := 0 } else e) },
      (s.outbox.filter (fun e => e.status == "Failed")).length)
  else (s, 0)

/-- The "Clear All Failed" handler: when some row has Status "Failed", keep
only the rows where the mask is false (`outbox_df[~failed_mask]`) and report
`failed_mask.sum()`; otherwise report nothing. -/
def purgeFailed (s : SysState) : SysState × Nat :=
  if s.outbox.any (fun e => e.status == "Failed") then
    ({ s with outbox := s.outbox.filter (fun e => !(e.status == "Failed")) },
      (s.outbox.filter (fun e => e.status == "Failed")).length)
  else (s, 0)

/-- Model of `safe_send_sms`: `configured` is `twilio_configured()`, `clientAvailable`
is `TwilioClient is not None`, and `callResult` is the oracle for the Twilio
interaction inside the `try` block — `ok sid` when `messages.create` returns
a message with that sid, `error e` when the block raises with message `e`
(the `except` turns it into a `(False, "Twilio error: ...")` return). -/
def safe_send_sms (configured clientAvailable : Bool)
    (callResult : Except String String) : Bool × String :=
  if !configured || !clientAvailable then (false, "Twilio not configured")
  else
    match callResult with
    | .ok sid => (true, "SMS sent: " ++ sid)
    | .error e => (false, "Twilio error: " ++ e)

/-- Model of `safe_make_call`: same shape as `safe_send_sms`, with `calls.create` as
the oracle and "Call initiated" wording. -/
def safe_make_call (configured clientAvailable : Bool)
    (callResult : Except String String) : Bool × String :=
  if !configured || !clientAvailable then (false, "Twilio not configured")
  else
    match callResult with
    | .ok sid => (true, "Call initiated: " ++ sid)
    | .error e => (false, "Twilio error: " ++ e)

/- ### Basic unfolding lemmas -/

theorem process_outbox_eq (t : Transport) (now : String) (maxAttempts : Int)
    (s : SysState) :
    process_outbox t now maxAttempts s =
      ⟨⟨(s.outbox.map (drainStep t now maxAttempts)).filterMap EntryStep.keep,
          s.logs ++ (s.outbox.map (drainStep t now maxAttempts)).filterMap EntryStep.logged⟩,
        (s.outbox.map (drainStep t now maxAttempts)).map EntryStep.outcome,
        (s.outbox.map (drainStep t now maxAttempts)).map EntryStep.invoked⟩ := by
  cases s with
  | mk q logs =>
    cases q with
    | nil => simp [process_outbox]
    | cons a l => simp [process_outbox]

theorem drainStep_guard {maxAttempts : Int} {e : OutboxEntry}
    (t : Transport) (now : String) (h : maxAttempts ≤ e.attempts) :
    drainStep t now maxAttempts e =
      ⟨some { e with status := "Failed" }, none, (false, "max attempts reached"), false⟩ := by
  simp [drainStep, h]

theorem drainStep_success {maxAttempts : Int} {e : OutboxEntry} {t : Transport}
    (now : String) (hlt : e.attempts < maxAttempts) (hok : (trySend t e).1 = true) :
    drainStep t now maxAttempts e =
      ⟨none, some (sentRow now e), (true, (trySend t e).2), true⟩ := by
  simp [drainStep, not_le.mpr hlt, hok]

theorem drainStep_failure {maxAttempts : Int} {e : OutboxEntry} {t : Transport}
    (now : String) (hlt : e.attempts < maxAttempts) (hok : (trySend t e).1 = false) :
    drainStep t now maxAttempts e =
      ⟨some { e with
              attempts := e.attempts + 1
              status := if e.attempts + 1 < maxAttempts then "Retrying" else "Failed" },
        none, (false, (trySend t e).2), true⟩ := by
  simp [drainStep, not_le.mpr hlt, hok]

/-- The row a failed (attempted) delivery leaves in the queue. -/
def afterFailure (maxAttempts : Int) (e : OutboxEntry) : OutboxEntry :=
  { e with
    attempts := e.attempts + 1
    status := if e.attempts + 1 < maxAttempts then "Retrying" else "Failed" }

/-- Delivery succeeded for a row in this pass: it was attempted (below the
budget) and the transport reported ok. -/
def deliverySucceeded (t : Transport) (maxAttempts : Int) (e : OutboxEntry) : Bool :=
  decide (e.attempts < maxAttempts) && (trySend t e).1

theorem drainStep_keep_none_iff (t : Transport) (now : String) (maxAttempts : Int)
    (e : OutboxEntry) :
    (drainStep t now maxAttempts e).keep = none ↔
      deliverySucceeded t maxAttempts e = true := by
  by_cases h : maxAttempts ≤ e.attempts
  · rw [drainStep_guard t now h]
    simp [deliverySucceeded, not_lt.mpr h]
  · have hlt : e.attempts < maxAttempts := not_le.mp h
    by_cases hok : (trySend t e).1 = true
    · rw [drainStep_success now hlt hok]
      simp [deliverySucceeded, hlt, hok]
    · have hko : (trySend t e).1 = false := by
        cases hb : (trySend t e).1
        · rfl
        · exact absurd hb hok
      rw [drainStep_failure now hlt hko]
      simp [deliverySucceeded, hko]

theorem drainStep_logged_eq (t : Transport) (now : String) (maxAttempts : Int)
    (e : OutboxEntry) :
    (drainStep t now maxAttempts e).logged =
      if deliverySucceeded t maxAttempts e then some (sentRow now e) else none := by
  by_cases h : maxAttempts ≤ e.attempts
  · rw [drainStep_guard t now h]
    simp [deliverySucceeded, not_lt.mpr h]
  · have hlt : e.attempts < maxAttempts := not_le.mp h
    by_cases hok : (trySend t e).1 = true
    · rw [drainStep_success now hlt hok]
      simp [deliverySucceeded, hlt, hok]
    · have hko : (trySend t e).1 = false := by
        cases hb : (trySend t e).1
        · rfl
        · exact absurd hb hok
      rw [drainStep_failure now hlt hko]
      simp [deliverySucceeded, hko]

theorem filterMap_if_some {α β : Type} (p : α → Bool) (f : α → β) (l : List α) :
    l.filterMap (fun a => if p a then some (f a) else none) = (l.filter p).map f := by
  induction l with
  | nil => rfl
  | cons a l ih =>
    by_cases h : p a
    · simp [List.filterMap_cons, List.filter_cons, h, ih]
    · simp [List.filterMap_cons, List.filter_cons, h, ih]

/- ### C9: drain on the empty queue -/

/-- C9: running `process_outbox` on an empty queue returns the empty outcome
list, leaves the delivery log (and the whole state) unchanged, and invokes
the Delivery Transport for no entry. -/
theorem drain_empty_queue_noop (t : Transport) (now : String) (maxAttempts : Int)
    (logs : List DeliveryLogEntry) :
    process_outbox t now maxAttempts ⟨[], logs⟩ = ⟨⟨[], logs⟩, [], []⟩ := rfl

/- ### C6: resetFailed reopens failed entries only -/

theorem map_eq_self_of_forall {α : Type} (f : α → α) (l : List α)
    (h : ∀ a ∈ l, f a = a) : l.map f = l := by
  induction l with
  | nil => rfl
  | cons a l ih =>
    simp only [List.map_cons, h a (by simp)]
    rw [ih (fun b hb => h b (by simp [hb]))]

theorem resetFailed_eq (s : SysState) :
    resetFailed s =
      ({ s with outbox := s.outbox.map (fun e =>
          if e.status == "Failed" then { e with status := "Pending", attempts := 0 } else e) },
        (s.outbox.filter (fun e => e.status == "Failed")).length) := by
  by_cases h : s.outbox.any (fun e => e.status == "Failed")
  · simp [resetFailed, h]
  · have hall : ∀ e ∈ s.outbox, (e.status == "Failed") = false := by
      intro e he
      cases hb : (e.status == "Failed")
      · rfl
      · exact absurd (List.any_eq_true.mpr ⟨e, he, hb⟩) h
    have hmap : s.outbox.map (fun e =>
        if e.status == "Failed" then { e with status := "Pending", attempts := 0 } else e)
        = s.outbox :=
      map_eq_self_of_forall _ _ (fun e he => by simp [hall e he])
    have hfil : s.outbox.filter (fun e => e.status == "Failed") = [] :=
      List.filter_eq_nil_iff.mpr (fun e he => by simp [hall e he])
    cases s with
    | mk q logs =>
      simp only at hmap hfil
      rw [resetFailed, if_neg h]
      simp only [hmap, hfil, List.length_nil]

/-- C6: `resetFailed` maps the queue pointwise, turning each Failed row into
Status "Pending" with Attempts 0 and leaving every other row (Pending or
Retrying) exactly as it was; the delivery log is untouched and the reported
count is the number of Failed rows (0 when there are none). -/
theorem resetFailed_reopens_failed_only (s : SysState) :
    (resetFailed s).1.outbox = s.outbox.map (fun e =>
        if e.status == "Failed" then { e with status := "Pending", attempts := 0 } else e) ∧
    (resetFailed s).1.logs = s.logs ∧
    (resetFailed s).2 = (s.outbox.filter (fun e => e.status == "Failed")).length ∧
    ∀ i : Nat, (resetFailed s).1.outbox.get? i = (s.outbox.get? i).map (fun e =>
        if e.status == "Failed" then { e with status := "Pending", attempts := 0 } else e) := by
  rw [resetFailed_eq]
  refine ⟨rfl, rfl, rfl, ?_⟩
  intro i
  exact List.get?_map _ _ _

/-- Witness for C6 on a concrete two-row queue (one Failed, one Retrying). -/
theorem resetFailed_reopens_failed_only_witness :
    (resetFailed ⟨[⟨"+254700000000", "m1", "English", "d", "sms", 3, "Failed"⟩,
                    ⟨"+254700000001", "m2", "English", "d", "sms", 1, "Retrying"⟩], []⟩).1.outbox
      = [⟨"+254700000000", "m1", "English", "d", "sms", 0, "Pending"⟩,
         ⟨"+254700000001", "m2", "English", "d", "sms", 1, "Retrying"⟩] ∧
    (resetFailed ⟨[⟨"+254700000000", "m1", "English", "d", "sms", 3, "Failed"⟩,
                    ⟨"+254700000001", "m2", "English", "d", "sms", 1, "Retrying"⟩], []⟩).2 = 1 := by
  have h := resetFailed_reopens_failed_only
    ⟨[⟨"+254700000000", "m1", "English", "d", "sms", 3, "Failed"⟩,
      ⟨"+254700000001", "m2", "English", "d", "sms", 1, "Retrying"⟩], []⟩
  exact ⟨by rw [h.1]; rfl, by rw [h.2.2.1]; rfl⟩

/- ### C7: purgeFailed removes exactly the failed entries -/

/-- C7: `purgeFailed` keeps exactly the non-Failed rows in their original
order, appends nothing to the delivery log, and reports the number of Failed
rows, which equals the number of rows removed. -/
theorem purgeFailed_eq (s : SysState) :
    purgeFailed s =
      ({ s with outbox := s.outbox.filter (fun e => !(e.status == "Failed")) },
        (s.outbox.filter (fun e => e.status == "Failed")).length) := by
  by_cases h : s.outbox.any (fun e => e.status == "Failed")
  · simp [purgeFailed, h]
  · have hall : ∀ e ∈ s.outbox, (e.status == "Failed") = false := by
      intro e he
      cases hb : (e.status == "Failed")
      · rfl
      · exact absurd (List.any_eq_true.mpr ⟨e, he, hb⟩) h
    have hfil : s.outbox.filter (fun e => e.status == "Failed") = [] :=
      List.filter_eq_nil_iff.mpr (fun e he => by simp [hall e he])
    have hkeep : s.outbox.filter (fun e => !(e.status == "Failed")) = s.outbox :=
      List.filter_eq_self.mpr (fun e he => by simp [hall e he])
    cases s with
    | mk q logs =>
      simp only at hfil hkeep
      rw [purgeFailed, if_neg h]
      simp only [hfil, hkeep, List.length_nil]

theorem purgeFailed_removes_failed_only (s : SysState) :
    (purgeFailed s).1.outbox = s.outbox.filter (fun e => !(e.status == "Failed")) ∧
    (purgeFailed s).1.logs = s.logs ∧
    (purgeFailed s).2 = (s.outbox.filter (fun e => e.status == "Failed")).length ∧
    (purgeFailed s).2 + (purgeFailed s).1.outbox.length = s.outbox.length := by
  rw [purgeFailed_eq]
  refine ⟨rfl, rfl, rfl, ?_⟩
  have hsplit : s.outbox.length =
      (s.outbox.filter (fun e => e.status == "Failed")).length +
      (s.outbox.filter (fun e => !(e.status == "Failed"))).length :=
    List.length_eq_length_filter_add (l := s.outbox) (fun e => e.status == "Failed")
  simp only
  omega

/- ### C1: failed attempts set Retrying / Failed and record the outcome -/

/-- C1: for a queue entry that drain attempts (its attempts are below the
budget, so the transport is invoked) and whose delivery fails, the pass
records the outcome `(false, info)` at that entry's position and keeps the
entry with attempts incremented and status "Retrying" when the
post-increment attempts are still below `maxAttempts`, "Failed" otherwise. -/
theorem drain_failure_marks_retry_or_failed (t : Transport) (now : String)
    (maxAttempts : Int) (s : SysState) (i : Nat) (e : OutboxEntry) (info : String)
    (hget : s.outbox.get? i = some e)
    (hatt : e.attempts < maxAttempts)
    (hfail : trySend t e = (false, info)) :
    (process_outbox t now maxAttempts s).results.get? i = some (false, info) ∧
    afterFailure maxAttempts e ∈ (process_outbox t now maxAttempts s).state.outbox ∧
    (afterFailure maxAttempts e).attempts = e.attempts + 1 ∧
    (e.attempts + 1 < maxAttempts → (afterFailure maxAttempts e).status = "Retrying") ∧
    (maxAttempts ≤ e.attempts + 1 → (afterFailure maxAttempts e).status = "Failed") := by
  have hko : (trySend t e).1 = false := by rw [hfail]
  have hinfo : (trySend t e).2 = info := by rw [hfail]
  have hstep := drainStep_failure (t := t) now hatt hko
  rw [process_outbox_eq]
  refine ⟨?_, ?_, rfl, ?_, ?_⟩
  · rw [List.get?_map, List.get?_map, hget]
    simp [hstep, hinfo]
  · apply List.mem_filterMap.mpr
    refine ⟨drainStep t now maxAttempts e,
      List.mem_map.mpr ⟨e, List.get?_mem hget, rfl⟩, ?_⟩
    rw [hstep]
    rfl
  · intro hlt
    show (if e.attempts + 1 < maxAttempts then "Retrying" else "Failed") = "Retrying"
    rw [if_pos hlt]
  · intro hge
    show (if e.attempts + 1 < maxAttempts then "Retrying" else "Failed") = "Failed"
    rw [if_neg (not_lt.mpr hge)]

/-- A transport on which every delivery fails (e.g. Twilio unconfigured). -/
def failingTransport : Transport :=
  ⟨fun _ _ => (false, "Twilio not configured"), fun _ _ => (false, "Twilio not configured")⟩

/-- A transport on which every delivery succeeds. -/
def okTransport : Transport :=
  ⟨fun _ _ => (true, "SMS sent: SM1"), fun _ _ => (true, "Call initiated: CA1")⟩

/-- A fresh sample queue row. -/
def sampleEntry : OutboxEntry :=
  ⟨"+254700000000", "hello", "English", "2024-01-01", "sms", 0, "Pending"⟩

/-- Witness for C1: one Pending sms row, failing transport, maxAttempts 3. -/
theorem drain_failure_marks_retry_or_failed_witness :
    (process_outbox failingTransport "d2" 3 ⟨[sampleEntry], []⟩).results.get? 0
      = some (false, "Twilio not configured") ∧
    afterFailure 3 sampleEntry
      ∈ (process_outbox failingTransport "d2" 3 ⟨[sampleEntry], []⟩).state.outbox := by
  have h := drain_failure_marks_retry_or_failed failingTransport "d2" 3
    ⟨[sampleEntry], []⟩ 0 sampleEntry "Twilio not configured" rfl (by decide) rfl
  exact ⟨h.1, h.2.1⟩

/- ### C2: success removes from the queue and logs exactly once -/

/-- C2: in a drain pass, the delivery log grows by exactly the successful
entries, one "Sent" row each (carrying the entry's recipient, message,
language and channel), in queue order; the new queue keeps exactly the
per-entry `keep` results; and a row is dropped from the queue (keep = none)
iff its delivery succeeded. -/
theorem drain_success_removes_and_logs_once (t : Transport) (now : String)
    (maxAttempts : Int) (s : SysState) :
    (process_outbox t now maxAttempts s).state.logs =
      s.logs ++ (s.outbox.filter (deliverySucceeded t maxAttempts)).map (sentRow now) ∧
    (process_outbox t now maxAttempts s).state.outbox =
      s.outbox.filterMap (fun e => (drainStep t now maxAttempts e).keep) ∧
    (∀ e : OutboxEntry, (drainStep t now maxAttempts e).keep = none ↔
        deliverySucceeded t maxAttempts e = true) ∧
    ∀ e : OutboxEntry, sentRow now e =
      ⟨e.recipient, e.message, e.language, now, e.msgType, "Sent"⟩ := by
  rw [process_outbox_eq]
  refine ⟨?_, ?_, drainStep_keep_none_iff t now maxAttempts, fun e => rfl⟩
  · simp only [List.filterMap_map]
    have hcomp : (EntryStep.logged ∘ drainStep t now maxAttempts)
        = fun e => if deliverySucceeded t maxAttempts e then some (sentRow now e) else none :=
      funext fun e => drainStep_logged_eq t now maxAttempts e
    rw [hcomp, filterMap_if_some]
  · simp only [List.filterMap_map]
    rfl

/- ### C3: max-attempts entries are terminal -/

/-- A sequence of drain passes with a fixed `max_attempts` (each pass may see
a different transport behavior and timestamp). -/
def runPasses (maxAttempts : Int) : List (Transport × String) → SysState → SysState
  | [], s => s
  | (t, now) :: ps, s => runPasses maxAttempts ps (drainPass t now maxAttempts s)

theorem mem_drainPass_of_keep {t : Transport} {now : String} {maxAttempts : Int}
    {s : SysState} {e e' : OutboxEntry} (he : e ∈ s.outbox)
    (hkeep : (drainStep t now maxAttempts e).keep = some e') :
    e' ∈ (drainPass t now maxAttempts s).outbox := by
  rw [drainPass, process_outbox_eq]
  exact List.mem_filterMap.mpr
    ⟨drainStep t now maxAttempts e, List.mem_map.mpr ⟨e, he, rfl⟩, hkeep⟩

theorem drainStep_failed_fixed {maxAttempts : Int} {e : OutboxEntry}
    (t : Transport) (now : String) (hmax : maxAttempts ≤ e.attempts)
    (hst : e.status = "Failed") :
    drainStep t now maxAttempts e = ⟨some e, none, (false, "max attempts reached"), false⟩ := by
  rw [drainStep_guard t now hmax]
  cases e with
  | mk r m lg d ty a st =>
    simp only at hst
    rw [hst]

theorem failed_mem_runPasses {maxAttempts : Int} {e : OutboxEntry}
    (hmax : maxAttempts ≤ e.attempts) (hst : e.status = "Failed")
    (passes : List (Transport × String)) :
    ∀ s : SysState, e ∈ s.outbox → e ∈ (runPasses maxAttempts passes s).outbox := by
  induction passes with
  | nil => exact fun s he => he
  | cons p ps ih =>
    intro s he
    cases p with
    | mk t now =>
      exact ih _ (mem_drainPass_of_keep he (by rw [drainStep_failed_fixed t now hmax hst]))

/-- C3: an entry whose attempts already reach `maxAttempts` at the start of a
pass is not attempted (transport not invoked), is marked "Failed" with the
outcome `(false, "max attempts reached")` recorded at its position, and the
"Failed" copy survives every later sequence of drain passes with the same
`maxAttempts`, never invoking the transport again. -/
theorem drain_max_attempts_terminal (t : Transport) (now : String)
    (maxAttempts : Int) (s : SysState) (i : Nat) (e : OutboxEntry)
    (hget : s.outbox.get? i = some e)
    (hmax : maxAttempts ≤ e.attempts) :
    (process_outbox t now maxAttempts s).invocations.get? i = some false ∧
    (process_outbox t now maxAttempts s).results.get? i
      = some (false, "max attempts reached") ∧
    { e with status := "Failed" } ∈ (process_outbox t now maxAttempts s).state.outbox ∧
    (∀ passes : List (Transport × String),
      { e with status := "Failed" } ∈
        (runPasses maxAttempts passes (drainPass t now maxAttempts s)).outbox) ∧
    ∀ t' : Transport, ∀ now' : String,
      (drainStep t' now' maxAttempts { e with status := "Failed" }).invoked = false := by
  have hstep := drainStep_guard (e := e) t now hmax
  have hmem : { e with status := "Failed" }
      ∈ (drainPass t now maxAttempts s).outbox :=
    mem_drainPass_of_keep (List.get?_mem hget) (by rw [hstep])
  refine ⟨?_, ?_, hmem, ?_, ?_⟩
  · rw [process_outbox_eq]
    simp only [List.get?_map, hget]
    simp [hstep]
  · rw [process_outbox_eq]
    simp only [List.get?_map, hget]
    simp [hstep]
  · intro passes
    exact failed_mem_runPasses (e := { e with status := "Failed" }) hmax rfl passes _ hmem
  · intro t' now'
    rw [drainStep_failed_fixed t' now' (e := { e with status := "Failed" }) hmax rfl]

/-- A row that has exhausted its retry budget. -/
def maxedEntry : OutboxEntry :=
  ⟨"+254700000000", "hello", "English", "2024-01-01", "sms", 3, "Retrying"⟩

/-- Witness for C3: a single row with attempts = maxAttempts = 3. -/
theorem drain_max_attempts_terminal_witness :
    (process_outbox failingTransport "d2" 3 ⟨[maxedEntry], []⟩).invocations.get? 0
      = some false ∧
    (process_outbox failingTransport "d2" 3 ⟨[maxedEntry], []⟩).results.get? 0
      = some (false, "max attempts reached") ∧
    { maxedEntry with status := "Failed" } ∈
      (runPasses 3 [(okTransport, "d3")]
        (drainPass failingTransport "d2" 3 ⟨[maxedEntry], []⟩)).outbox := by
  have h := drain_max_attempts_terminal failingTransport "d2" 3
    ⟨[maxedEntry], []⟩ 0 maxedEntry rfl (by decide)
  exact ⟨h.1, h.2.1, h.2.2.2.1 [(okTransport, "d3")]⟩

/- ### C4: attempts increase by exactly 1 when attempted, else unchanged -/

/-- Track one row through a sequence of drain passes: the row kept by each
pass's step, `none` from the point the row is removed (delivered). -/
def entryAfterPasses (maxAttempts : Int) :
    List (Transport × String) → OutboxEntry → Option OutboxEntry
  | [], e => some e
  | (t, now) :: ps, e =>
    match (drainStep t now maxAttempts e).keep with
    | none => none
    | some e' => entryAfterPasses maxAttempts ps e'

theorem drainStep_keep_attempts_le {t : Transport} {now : String}
    {maxAttempts : Int} {e e' : OutboxEntry}
    (hkeep : (drainStep t now maxAttempts e).keep = some e') :
    e.attempts ≤ e'.attempts := by
  by_cases h : maxAttempts ≤ e.attempts
  · rw [drainStep_guard t now h] at hkeep
    cases hkeep
    exact le_refl _
  · have hlt : e.attempts < maxAttempts := not_le.mp h
    by_cases hok : (trySend t e).1 = true
    · rw [drainStep_success now hlt hok] at hkeep
      cases hkeep
    · have hko : (trySend t e).1 = false := by
        cases hb : (trySend t e).1
        · rfl
        · exact absurd hb hok
      rw [drainStep_failure now hlt hko] at hkeep
      cases hkeep
      exact Int.le_of_lt (Int.lt_add_one_of_le (le_refl _))

/-- C4: in a pass, the transport is invoked for a row iff its attempts are
below the budget; a row that is invoked and kept has its attempts
incremented by exactly 1; a row that is not invoked (skipped by the
max-attempts guard) keeps its attempts unchanged; hence over any sequence of
passes a surviving row's attempts never decrease. -/
theorem drain_attempts_increment (t : Transport) (now : String) (maxAttempts : Int) :
    (∀ e : OutboxEntry, (drainStep t now maxAttempts e).invoked = true ↔
        e.attempts < maxAttempts) ∧
    (∀ e e' : OutboxEntry, (drainStep t now maxAttempts e).invoked = true →
        (drainStep t now maxAttempts e).keep = some e' →
        e'.attempts = e.attempts + 1) ∧
    (∀ e e' : OutboxEntry, (drainStep t now maxAttempts e).invoked = false →
        (drainStep t now maxAttempts e).keep = some e' →
        e'.attempts = e.attempts) ∧
    ∀ passes : List (Transport × String), ∀ e e' : OutboxEntry,
      entryAfterPasses maxAttempts passes e = some e' →
      e.attempts ≤ e'.attempts := by
  have hinv : ∀ e : OutboxEntry, (drainStep t now maxAttempts e).invoked = true ↔
      e.attempts < maxAttempts := by
    intro e
    by_cases h : maxAttempts ≤ e.attempts
    · rw [drainStep_guard t now h]
      simp [not_lt.mpr h]
    · have hlt : e.attempts < maxAttempts := not_le.mp h
      by_cases hok : (trySend t e).1 = true
      · rw [drainStep_success now hlt hok]
        simp [hlt]
      · have hko : (trySend t e).1 = false := by
          cases hb : (trySend t e).1
          · rfl
          · exact absurd hb hok
        rw [drainStep_failure now hlt hko]
        simp [hlt]
  refine ⟨hinv, ?_, ?_, ?_⟩
  · intro e e' hi hkeep
    have hlt : e.attempts < maxAttempts := (hinv e).mp hi
    by_cases hok : (trySend t e).1 = true
    · rw [drainStep_success now hlt hok] at hkeep
      cases hkeep
    · have hko : (trySend t e).1 = false := by
        cases hb : (trySend t e).1
        · rfl
        · exact absurd hb hok
      rw [drainStep_failure now hlt hko] at hkeep
      cases hkeep
      rfl
  · intro e e' hi hkeep
    have hge : maxAttempts ≤ e.attempts := by
      by_contra hc
      rw [(hinv e).mpr (not_le.mp hc)] at hi
      cases hi
    rw [drainStep_guard t now hge] at hkeep
    cases hkeep
    rfl
  · intro passes
    induction passes with
    | nil =>
      intro e e' h
      cases h
      exact le_refl _
    | cons p ps ih =>
      intro e e' h
      cases p with
      | mk tp np =>
        cases hkeep : (drainStep tp np maxAttempts e).keep with
        | none =>
          rw [entryAfterPasses, hkeep] at h
          cases h
        | some e1 =>
          rw [entryAfterPasses, hkeep] at h
          exact le_trans (drainStep_keep_attempts_le hkeep) (ih e1 e' h)

/- ### C5: reachable states keep Retrying entries inside the budget -/

/-- States reachable from the empty queue and empty log by enqueue, drain
(with a fixed `maxAttempts`; transport behavior and timestamps arbitrary per
pass), resetFailed and purgeFailed. -/
inductive Reach (maxAttempts : Int) : SysState → Prop where
  | init : Reach maxAttempts ⟨[], []⟩
  | enqueue (r m lg ty now : String) {s : SysState} :
      Reach maxAttempts s → Reach maxAttempts (add_to_outbox r m lg ty now s)
  | drain (t : Transport) (now : String) {s : SysState} :
      Reach maxAttempts s → Reach maxAttempts (drainPass t now maxAttempts s)
  | reset {s : SysState} : Reach maxAttempts s → Reach maxAttempts (resetFailed s).1
  | purge {s : SysState} : Reach maxAttempts s → Reach maxAttempts (purgeFailed s).1

/-- The invariant carried through the induction: attempts are non-negative,
and a Retrying row has failed at least once while staying below the
budget. -/
def EntryInv (maxAttempts : Int) (e : OutboxEntry) : Prop :=
  0 ≤ e.attempts ∧ (e.status = "Retrying" → 1 ≤ e.attempts ∧ e.attempts < maxAttempts)

theorem drainStep_keep_inv {t : Transport} {now : String} {maxAttempts : Int}
    {e e' : OutboxEntry} (hinv : EntryInv maxAttempts e)
    (hkeep : (drainStep t now maxAttempts e).keep = some e') :
    EntryInv maxAttempts e' := by
  by_cases h : maxAttempts ≤ e.attempts
  · rw [drainStep_guard t now h] at hkeep
    cases hkeep
    exact ⟨hinv.1, fun hst => by simp at hst⟩
  · have hlt : e.attempts < maxAttempts := not_le.mp h
    by_cases hok : (trySend t e).1 = true
    · rw [drainStep_success now hlt hok] at hkeep
      cases hkeep
    · have hko : (trySend t e).1 = false := by
        cases hb : (trySend t e).1
        · rfl
        · exact absurd hb hok
      rw [drainStep_failure now hlt hko] at hkeep
      cases hkeep
      have h0 : (0 : Int) ≤ e.attempts := hinv.1
      constructor
      · show (0 : Int) ≤ e.attempts + 1
        omega
      · intro hst
        by_cases hret : e.attempts + 1 < maxAttempts
        · refine ⟨?_, hret⟩
          show (1 : Int) ≤ e.attempts + 1
          omega
        · exfalso
          revert hst
          show (if e.attempts + 1 < maxAttempts then "Retrying" else "Failed") = "Retrying" → False
          rw [if_neg hret]
          decide

theorem reach_entry_inv {maxAttempts : Int} {s : SysState}
    (h : Reach maxAttempts s) : ∀ e ∈ s.outbox, EntryInv maxAttempts e := by
  induction h with
  | init =>
    intro e he
    cases he
  | enqueue r m lg ty now _ ih =>
    intro e he
    rcases List.mem_append.mp he with hold | hnew
    · exact ih e hold
    · rcases List.mem_singleton.mp hnew with rfl
      exact ⟨le_refl _, fun hst => by simp at hst⟩
  | drain t now _ ih =>
    intro e' he'
    rw [drainPass, process_outbox_eq] at he'
    rcases List.mem_filterMap.mp he' with ⟨st, hst, hkeep⟩
    rcases List.mem_map.mp hst with ⟨e, he, rfl⟩
    exact drainStep_keep_inv (ih e he) hkeep
  | reset _ ih =>
    intro e' he'
    rw [resetFailed_eq] at he'
    rcases List.mem_map.mp he' with ⟨e, he, rfl⟩
    by_cases hf : (e.status == "Failed") = true
    · rw [if_pos hf]
      exact ⟨le_refl _, fun hst => by simp at hst⟩
    · rw [if_neg hf]
      exact ih e he
  | purge _ ih =>
    intro e' he'
    rw [purgeFailed_eq] at he'
    exact ih e' (List.mem_of_mem_filter he')

/-- C5: in every state reachable by enqueue / drain (fixed `maxAttempts`) /
resetFailed / purgeFailed from the empty queue, a Retrying entry has failed
at least once (attempts ≥ 1) and is still below the budget
(attempts < maxAttempts). -/
theorem reachable_retrying_bounds (maxAttempts : Int) (s : SysState)
    (h : Reach maxAttempts s) :
    ∀ e ∈ s.outbox, e.status = "Retrying" →
      1 ≤ e.attempts ∧ e.attempts < maxAttempts :=
  fun e he hst => (reach_entry_inv h e he).2 hst

/-- Witness for C5: enqueue one sms row into the empty state and drain once
with a failing transport; the row is Retrying with attempts 1 < 3. -/
theorem reachable_retrying_bounds_witness :
    1 ≤ (afterFailure 3 sampleEntry).attempts ∧
      (afterFailure 3 sampleEntry).attempts < 3 := by
  have hreach : Reach 3 (drainPass failingTransport "d2" 3
      (add_to_outbox "+254700000000" "hello" "English" "sms" "2024-01-01" ⟨[], []⟩)) :=
    Reach.drain _ _ (Reach.enqueue _ _ _ _ _ Reach.init)
  have hmem : afterFailure 3 sampleEntry ∈ (drainPass failingTransport "d2" 3
      (add_to_outbox "+254700000000" "hello" "English" "sms" "2024-01-01" ⟨[], []⟩)).outbox := by
    have houtbox : (drainPass failingTransport "d2" 3
        (add_to_outbox "+254700000000" "hello" "English" "sms" "2024-01-01" ⟨[], []⟩)).outbox
        = [afterFailure 3 sampleEntry] := by rfl
    rw [houtbox]
    exact List.mem_singleton.mpr rfl
  exact reachable_retrying_bounds 3 _ hreach (afterFailure 3 sampleEntry) hmem rfl

/- ### C8: the transport wrappers never raise -/

/-- C8: `safe_send_sms` and `safe_make_call` always return an `(ok, info)`
pair: a missing configuration (credentials or library) yields the
`success = false` outcome `(false, "Twilio not configured")` rather than a
distinct error; an exception inside the Twilio call is caught and returned
as `(false, "Twilio error: ...")`; and the only way to return ok = true is a
configured client whose call returned normally. -/
theorem transport_send_never_raises (configured clientAvailable : Bool)
    (callResult : Except String String) :
    ((configured = false ∨ clientAvailable = false) →
      safe_send_sms configured clientAvailable callResult
        = (false, "Twilio not configured") ∧
      safe_make_call configured clientAvailable callResult
        = (false, "Twilio not configured")) ∧
    (∀ err : String,
      safe_send_sms configured clientAvailable (Except.error err)
          = (false, "Twilio not configured") ∨
      safe_send_sms configured clientAvailable (Except.error err)
          = (false, "Twilio error: " ++ err)) ∧
    (∀ err : String,
      safe_make_call configured clientAvailable (Except.error err)
          = (false, "Twilio not configured") ∨
      safe_make_call configured clientAvailable (Except.error err)
          = (false, "Twilio error: " ++ err)) ∧
    ((safe_send_sms configured clientAvailable callResult).1 = true →
      ∃ sid, callResult = Except.ok sid ∧ configured = true ∧ clientAvailable = true ∧
        safe_send_sms configured clientAvailable callResult
          = (true, "SMS sent: " ++ sid)) ∧
    ((safe_make_call configured clientAvailable callResult).1 = true →
      ∃ sid, callResult = Except.ok sid ∧ configured = true ∧ clientAvailable = true ∧
        safe_make_call configured clientAvailable callResult
          = (true, "Call initiated: " ++ sid)) := by
  cases configured <;> cases clientAvailable <;> cases callResult <;>
    simp [safe_send_sms, safe_make_call]

/- ### C10: drain is total exactly when every Attempts cell is integer-like -/

/-- A raw cell value as it sits in the loaded table: a JSON number (Python
int) or a string. -/
inductive PyVal where
  | pint (n : Int)
  | pstr (s : String)
deriving Repr, DecidableEq

def parseDigits : List Char → Option Nat
  | [] => none
  | cs =>
    if cs.all (fun c => c.isDigit)
    then some (cs.foldl (fun acc c => acc * 10 + (c.toNat - 48)) 0)
    else none

/-- Leading and trailing whitespace removed, as Python's `int` does before
parsing. -/
def stripSpaces (cs : List Char) : List Char :=
  ((cs.dropWhile (fun c => c.isWhitespace)).reverse.dropWhile
    (fun c => c.isWhitespace)).reverse

/-- Python `int(x)` on a string: optional surrounding whitespace, optional
sign, then at least one decimal digit; anything else (in particular the
empty string) raises ValueError, modeled as `none`.  (Digit-group
underscores are not modeled; no claim depends on them.) -/
def pyIntOfString (s : String) : Option Int :=
  match stripSpaces s.toList with
  | '+' :: rest => (parseDigits rest).map (fun n => (n : Int))
  | '-' :: rest => (parseDigits rest).map (fun n => -(n : Int))
  | cs => (parseDigits cs).map (fun n => (n : Int))

/-- Python `int(x)` as applied by `process_outbox` to the Attempts cell. -/
def pyInt : PyVal → Option Int
  | .pint n => some n
  | .pstr s => pyIntOfString s

/-- A queue row as loaded from the JSON table: every column exists (the
loader guarantees that), but the Attempts cell is still a raw value. -/
structure RawEntry where
  recipient : String
  message : String
  language : String
  dateCreated : String
  msgType : String
  attempts : PyVal
  status : String
deriving Repr, DecidableEq

/-- Model of `load_df_from_file`'s fill for an expected column missing from the
stored table: the empty string. -/
def fillMissingAttempts : Option PyVal → PyVal
  | some v => v
  | none => .pstr ""

/-- The typed row obtained once `int(...)` produced `a`. -/
def typedEntry (r : RawEntry) (a : Int) : OutboxEntry :=
  ⟨r.recipient, r.message, r.language, r.dateCreated, r.msgType, a, r.status⟩

/-- The typed row of a raw row all of whose cells convert. -/
def rawConv (r : RawEntry) : OutboxEntry :=
  typedEntry r ((pyInt r.attempts).getD 0)

/-- Model of `process_outbox` over raw rows: `int(row.get("Attempts", 0))` runs for
each row in order and a non-convertible cell raises, so the drain returns
nothing (`none`); when every cell converts the pass behaves like `drainStep`
on the typed rows, producing the new queue, the appended log rows and the
outcome list. -/
def rawDrain (t : Transport) (now : String) (maxAttempts : Int) :
    List RawEntry →
      Option (List OutboxEntry × List DeliveryLogEntry × List (Bool × String))
  | [] => some ([], [], [])
  | r :: rest =>
    match pyInt r.attempts with
    | none => none
    | some a =>
      let st := drainStep t now maxAttempts (typedEntry r a)
      match rawDrain t now maxAttempts rest with
      | none => none
      | some (q, lg, res) =>
        some (st.keep.toList ++ q, st.logged.toList ++ lg, st.outcome :: res)

theorem rawDrain_eq_of_parse (t : Transport) (now : String) (maxAttempts : Int)
    (q : List RawEntry) (h : ∀ r ∈ q, (pyInt r.attempts).isSome) :
    rawDrain t now maxAttempts q = some
      ((q.map rawConv).filterMap (fun e => (drainStep t now maxAttempts e).keep),
       (q.map rawConv).filterMap (fun e => (drainStep t now maxAttempts e).logged),
       (q.map rawConv).map (fun e => (drainStep t now maxAttempts e).outcome)) := by
  induction q with
  | nil => rfl
  | cons r rest ih =>
    rcases Option.isSome_iff_exists.mp (h r (by simp)) with ⟨a, ha⟩
    have hconv : rawConv r = typedEntry r a := by rw [rawConv, ha]; rfl
    have hrest := ih (fun x hx => h x (by simp [hx]))
    rw [rawDrain, ha, hrest]
    simp only [List.map_cons, List.filterMap_cons, hconv]
    cases hkeep : (drainStep t now maxAttempts (typedEntry r a)).keep with
    | none =>
      cases hlog : (drainStep t now maxAttempts (typedEntry r a)).logged with
      | none => simp [hkeep, hlog]
      | some d => simp [hkeep, hlog]
    | some e' =>
      cases hlog : (drainStep t now maxAttempts (typedEntry r a)).logged with
      | none => simp [hkeep, hlog]
      | some d => simp [hkeep, hlog]

theorem rawDrain_isSome_parse (t : Transport) (now : String) (maxAttempts : Int)
    (q : List RawEntry) (h : (rawDrain t now maxAttempts q).isSome) :
    ∀ r ∈ q, (pyInt r.attempts).isSome := by
  induction q with
  | nil =>
    intro r hr
    cases hr
  | cons x rest ih =>
    intro r hr
    cases ha : pyInt x.attempts with
    | none =>
      rw [rawDrain, ha] at h
      cases h
    | some a =>
      rw [rawDrain, ha] at h
      rcases List.mem_cons.mp hr with rfl | hmem
      · rw [ha]
        rfl
      · cases hrest : rawDrain t now maxAttempts rest with
        | none =>
          rw [hrest] at h
          cases h
        | some out =>
          exact ih (by rw [hrest]; rfl) r hmem

/-- C10: the `int(...)` conversion of the Attempts cell is the sole partial
step of a drain pass — when every queue row's Attempts converts, the raw
pass returns exactly the typed pass's queue, log rows and outcome list, and
conversely a pass that returns at all had every cell convert; the loader's
fill for a missing Attempts column is the empty string, which does not
convert, and a queue holding such a row makes the pass raise (`none`)
instead of returning an outcome list. -/
theorem drain_total_iff_attempts_parse (t : Transport) (now : String)
    (maxAttempts : Int) (q : List RawEntry) :
    ((∀ r ∈ q, (pyInt r.attempts).isSome) →
      rawDrain t now maxAttempts q = some
        ((process_outbox t now maxAttempts ⟨q.map rawConv, []⟩).state.outbox,
         (process_outbox t now maxAttempts ⟨q.map rawConv, []⟩).state.logs,
         (process_outbox t now maxAttempts ⟨q.map rawConv, []⟩).results)) ∧
    ((rawDrain t now maxAttempts q).isSome → ∀ r ∈ q, (pyInt r.attempts).isSome) ∧
    pyInt (fillMissingAttempts none) = none ∧
    rawDrain t now maxAttempts
      [⟨"+254700000000", "hello", "English", "2024-01-01", "sms",
        fillMissingAttempts none, "Pending"⟩] = none := by
  refine ⟨?_, rawDrain_isSome_parse t now maxAttempts q, rfl, rfl⟩
  intro h
  rw [rawDrain_eq_of_parse t now maxAttempts q h, process_outbox_eq]
  simp only [List.nil_append, List.filterMap_map, List.map_map]
  rfl

/-- Witness for C10 at a concrete queue: a single well-formed row (Attempts
the number 0) converts and drains; the same row with the loader-filled empty
string raises. -/
theorem drain_total_iff_attempts_parse_witness :
    rawDrain failingTransport "d2" 3
      [⟨"+254700000000", "hello", "English", "2024-01-01", "sms",
        PyVal.pint 0, "Pending"⟩]
      = some ([afterFailure 3 sampleEntry], [], [(false, "Twilio not configured")]) ∧
    rawDrain failingTransport "d2" 3
      [⟨"+254700000000", "hello", "English", "2024-01-01", "sms",
        fillMissingAttempts none, "Pending"⟩] = none := by
  have h := drain_total_iff_attempts_parse failingTransport "d2" 3
    [⟨"+254700000000", "hello", "English", "2024-01-01", "sms",
      PyVal.pint 0, "Pending"⟩]
  refine ⟨?_, ?_⟩
  · rw [h.1 (by intro r hr; cases List.mem_singleton.mp hr; rfl)]
    rfl
  · have h2 := drain_total_iff_attempts_parse failingTransport "d2" 3
      [⟨"+254700000000", "hello", "English", "2024-01-01", "sms",
        fillMissingAttempts none, "Pending"⟩]
    exact h2.2.2.2

end ShaApp
